import Mathlib

/-!
Shallow embedding of the solid-wire local-first record store and sync engine.

The embedding follows the TypeScript source:
  * `idb.ts` — the IndexedDB-backed record store (`put`, `purge`, `set`,
    `softDelete`, `get`, `all`, the unsynced index and the subscriber map);
  * `service.tsx` — the `WireStoreService` component whose `triggerSync`
    implements one push-pull sync cycle against the configured exchange
    function, guarded by the in-memory `syncing` flag and the persisted
    sync cursor slot in `localStorage`.

The IndexedDB object store `records` (keyPath `id`) is modelled as an
association list of records with lookup by first matching id; `put`
replaces in place.  Failure of individual storage writes is modelled by an
oracle assigning an optional error message per record, mirroring a
rejecting IndexedDB request inside the `Promise.all` of `put`.
-/

namespace SolidWire

mutual
/-- JS values as the library stores and serializes them: the JSON shapes
plus `fn`, a leaf standing for the non-JSON-serializable values
(functions, `undefined`, symbols). -/
inductive JSValue : Type where
  | null : JSValue
  | jsbool : Bool → JSValue
  | num : Int → JSValue
  | str : String → JSValue
  | fn : JSValue
  | arr : JSList → JSValue
  | obj : JSFields → JSValue

inductive JSList : Type where
  | nil : JSList
  | cons : JSValue → JSList → JSList

inductive JSFields : Type where
  | nil : JSFields
  | cons : String → JSValue → JSFields → JSFields
end

mutual
/-- The effect of `JSON.parse(JSON.stringify(v))`: identity on JSON
shapes, `none` when the top-level value does not serialize
(JSON.stringify yields `undefined`, so JSON.parse throws),
non-serializable array elements become `null`, and non-serializable
object fields are dropped. -/
def jsonRT : JSValue → Option JSValue
  | .null => some .null
  | .jsbool b => some (.jsbool b)
  | .num n => some (.num n)
  | .str s => some (.str s)
  | .fn => none
  | .arr xs => some (.arr (jsonRTList xs))
  | .obj fs => some (.obj (jsonRTFields fs))

def jsonRTList : JSList → JSList
  | .nil => .nil
  | .cons v tl => .cons ((jsonRT v).getD .null) (jsonRTList tl)

def jsonRTFields : JSFields → JSFields
  | .nil => .nil
  | .cons k v tl =>
    match jsonRT v with
    | none => jsonRTFields tl
    | some w => .cons k w (jsonRTFields tl)
end

/-- Index-keyed fields produced by spreading an array. -/
def indexFields : Nat → JSList → JSFields
  | _, .nil => .nil
  | n, .cons v tl => .cons (toString n) v (indexFields (n + 1) tl)

/-- Index-keyed single-character fields produced by spreading a string. -/
def charFields : Nat → List Char → JSFields
  | _, [] => .nil
  | n, c :: tl => .cons (toString n) (.str c.toString) (charFields (n + 1) tl)

/-- The JS object-spread expression `\x7b...v\x7d` used by `all()` and by
the unsynced-record translation in `triggerSync`: shallow-copies an
object, turns arrays and strings into index-keyed objects, and turns every
other value into the empty object. -/
def jsSpread : JSValue → JSValue
  | .obj fs => .obj fs
  | .arr xs => .obj (indexFields 0 xs)
  | .str s => .obj (charFields 0 s.toList)
  | _ => .obj .nil

/-- A raw row of the `records` object store (`IdbRecord` in `types.ts`).
Optional fields model fields that may be absent from the stored object. -/
structure IdbRecord : Type where
  id : String
  type : String
  deleted : Option Bool := none
  unsynced : Option String := none
  data : JSValue

/-- The `records` object store: rows in store order, at most one per id in
any state reachable through the API (IndexedDB enforces the keyPath). -/
abbrev DB := List IdbRecord

/-- Model of `objectStore("records").get(id)`. -/
def dbGet (db : DB) (i : String) : Option IdbRecord :=
  db.find? (fun r => r.id == i)

/-- Model of `objectStore("records").put(r)`: replace the row with the same id, or
append a new row. -/
def dbPut : DB → IdbRecord → DB
  | [], r => [r]
  | x :: xs, r => if x.id == r.id then r :: xs else x :: dbPut xs r

/-- Model of `objectStore("records").delete(i)`: removing a missing id succeeds. -/
def dbDelete (db : DB) (i : String) : DB :=
  db.filter (fun r => r.id != i)

/-- Per-record storage failure oracle: `some msg` means the IndexedDB
`put` request for that record rejects with `msg`. -/
abbrev PutOracle := IdbRecord → Option String

/-- The always-succeeding storage behaviour. -/
def noFail : PutOracle := fun _ => none

/-- Model of `idb.put(...records)`: all writes are issued in one `Promise.all`;
each record whose request succeeds is stored even if another rejects, and
the operation as a whole rejects with the error of the first failing record. -/
def put (fail : PutOracle) (db : DB) (records : List IdbRecord) :
    DB × Option String :=
  (records.foldl (fun d r => if fail r = none then dbPut d r else d) db,
   records.findSome? fail)

/-- Model of `idb.purge(ids)`: hard-delete each id; ids with no stored record are
ignored. -/
def purge (db : DB) (ids : List String) : DB :=
  ids.foldl dbDelete db

/-- The tombstone row written by `softDelete`. -/
def tombstone (ty i : String) : IdbRecord :=
  { id := i, type := ty, deleted := some true, unsynced := some "true",
    data := .obj .nil }

/-- Model of `softDelete(...ids)` of the public API (`delete`): one `put` call per
id writing a tombstone; the operation rejects with the error of the
first failing write. -/
def softDelete (fail : PutOracle) (ty : String) (ids : List String)
    (db : DB) : DB × Option String :=
  ids.foldl
    (fun acc i =>
      let step := put fail acc.1 [tombstone ty i]
      (step.1, acc.2 <|> step.2))
    (db, none)

/-- The row written by `set(id, data)` once `data` survived the JSON
round trip. -/
def setRecord (ty i : String) (v : JSValue) : IdbRecord :=
  { id := i, type := ty, unsynced := some "true", data := v }

/-- Model of `set(id, data)` of the public API: JSON round-trips the payload (a
non-serializable top-level value makes `JSON.parse` throw, rejecting the
call), then `put`s a record marked `unsynced: "true"`. -/
def set (fail : PutOracle) (ty i : String) (d : JSValue) (db : DB) :
    DB × Option String :=
  match jsonRT d with
  | none => (db, some "SyntaxError")
  | some v => put fail db [setRecord ty i v]

/-- Model of `get(id)` of the public API: the `data` of the raw row, or `undefined` when
the row is absent or soft-deleted. -/
def get (db : DB) (i : String) : Option JSValue :=
  match dbGet db i with
  | none => none
  | some r => if r.deleted == some true then none else some r.data

/-- The rows contributing to `all()`: the `type` index restricted to rows
whose `deleted` field is not `true`. -/
def allRecords (db : DB) (ty : String) : List IdbRecord :=
  (db.filter (fun r => r.type == ty)).filter (fun r => !(r.deleted == some true))

/-- Model of `all()` of the public API: the spread-copied `data` of each
non-deleted row of the type. -/
def allData (db : DB) (ty : String) : List JSValue :=
  (allRecords db ty).map (fun r => jsSpread r.data)

/-- Model of `getRawUnhookedUnsyncedRecords()`: the `unsynced` index queried at
`"true"` — exactly the rows carrying the field with that value. -/
def getUnsynced (db : DB) : List IdbRecord :=
  db.filter (fun r => r.unsynced == some "true")

/-! ### The subscriber map of `listenToUnsyncedChanges`

The `subscribers` JS object maps string keys to callbacks; callbacks are
identified here by natural numbers (reference identity). -/

/-- The `subscribers` object: string key to callback. -/
abbrev Subscribers := List (String × Nat)

/-- JS property assignment `subscribers[id] = callback`: overwrite in
place or add. -/
def subSet : Subscribers → String → Nat → Subscribers
  | [], k, v => [(k, v)]
  | (k0, v0) :: tl, k, v =>
    if k0 == k then (k, v) :: tl else (k0, v0) :: subSet tl k v

/-- JS `delete subscribers[id]`. -/
def subDel (subs : Subscribers) (k : String) : Subscribers :=
  subs.filter (fun p => p.1 != k)

/-- Model of `listenToUnsyncedChanges(callback)` called when the clock reads `now`
milliseconds: the key is `new Date().getTime().toString()`; the returned
string is the key the unsubscribe closure deletes. -/
def listenToUnsyncedChanges (subs : Subscribers) (now : Nat) (cb : Nat) :
    Subscribers × String :=
  (subSet subs (toString now) cb, toString now)

/-- Running the unsubscribe closure returned for key `k`. -/
def unsubscribe (subs : Subscribers) (k : String) : Subscribers :=
  subDel subs k

/-- Model of `notifyUnsyncedChanges()`: the callbacks invoked in the deferred
timeout — `Object.values(subscribers)`. -/
def notifyUnsyncedChanges (subs : Subscribers) : List Nat :=
  subs.map (fun p => p.2)

/-! ### The sync engine (`WireStoreService.triggerSync` in `service.tsx`) -/

/-- The `state` field of wire records. -/
inductive RecState : Type where
  | updated : RecState
  | deleted : RecState
deriving DecidableEq, Repr

instance : BEq RecState := instBEqOfDecidableEq

/-- Wire type `UnsyncedRecord`: a local pending write as sent to the exchange. -/
structure UnsyncedRecord : Type where
  id : String
  type : String
  state : RecState
  data : JSValue

/-- Wire type `SyncedRecord`: one authoritative entry of the exchange response. -/
structure SyncedRecord : Type where
  id : String
  type : String
  state : RecState
  data : JSValue

/-- The single object argument `\x7b records, namespace, syncCursor \x7d`
passed to the configured sync function (`ns` models the JS field
`namespace`, which is a reserved word in Lean). -/
structure SyncRequest : Type where
  records : List UnsyncedRecord
  ns : String
  syncCursor : Option String

/-- The exchange response `\x7b records, syncCursor? \x7d`. -/
structure SyncResponse : Type where
  records : List SyncedRecord
  syncCursor : Option String

/-- The configured exchange: may reject (model of a rejected promise). -/
abbrev Exchange := SyncRequest → Except String SyncResponse

/-- The translation of a raw unsynced row into an `UnsyncedRecord`
performed at the start of a cycle: `state` is derived from `deleted`, and
`data` is spread-copied. -/
def toUnsynced (r : IdbRecord) : UnsyncedRecord :=
  { id := r.id, type := r.type,
    state := if r.deleted == some true then .deleted else .updated,
    data := jsSpread r.data }

/-- Model of `localStorage.getItem(cursorKey) || undefined`: an absent slot and the
empty string both read back as `undefined`. -/
def cursorRead (slot : Option String) : Option String :=
  match slot with
  | some s => if s = "" then none else some s
  | none => none

/-- The in-memory state owned by one `WireStoreService`: the record store,
the persisted cursor slot `wire-store:<name>:<namespace>:sync-cursor`
(`none` models an absent `localStorage` entry) and the `syncing` flag. -/
structure EngineState : Type where
  db : DB
  cursorSlot : Option String
  syncing : Bool

/-- The request object a cycle starting from state `s` sends. -/
def syncRequest (ns : String) (s : EngineState) : SyncRequest :=
  { records := (getUnsynced s.db).map toUnsynced, ns := ns,
    syncCursor := cursorRead s.cursorSlot }

/-- The record written for an `"updated"` response entry: the object
literal `\x7b id, type, data \x7d` — no `deleted`, no `unsynced`. -/
def fromSynced (r : SyncedRecord) : IdbRecord :=
  { id := r.id, type := r.type, data := r.data }

/-- The outcome of one `triggerSync()` call: the resulting engine state,
the list of exchange invocations it performed, and the outcome of the
returned promise (`some e` models rejection with `e`; `triggerSync` has no
`catch`, only a `finally` releasing the flag, so every failure inside the
cycle surfaces here). -/
structure SyncOutcome : Type where
  state : EngineState
  calls : List SyncRequest
  rejection : Option String

/-- The body of one sync cycle, entered with the `syncing` flag held:
read the unsynced rows and the cursor, invoke the exchange once with the
single request object, `put` the `"updated"` entries, `purge` the ids of
the `"deleted"` entries, then persist or clear the cursor slot; any
failure aborts the remaining steps and becomes the promise rejection, and
the `finally` clears `syncing` on every path. -/
def syncCycleBody (fail : PutOracle) (exchange : Exchange) (ns : String)
    (s : EngineState) : SyncOutcome :=
  match exchange (syncRequest ns s) with
  | .error e =>
    { state := { s with syncing := false },
      calls := [syncRequest ns s], rejection := some e }
  | .ok resp =>
    match put fail s.db
        ((resp.records.filter (fun r => r.state == .updated)).map fromSynced) with
    | (db1, some e) =>
      { state := { s with db := db1, syncing := false },
        calls := [syncRequest ns s], rejection := some e }
    | (db1, none) =>
      { state :=
          { db := purge db1
              ((resp.records.filter (fun r => r.state == .deleted)).map
                (fun r => r.id)),
            cursorSlot := resp.syncCursor, syncing := false },
        calls := [syncRequest ns s], rejection := none }

/-- The synchronous prefix of `triggerSync`: the re-entrancy guard — a
call made while `syncing` returns at once; otherwise the flag is taken. -/
def syncBegin (s : EngineState) : EngineState × Bool :=
  if s.syncing then (s, false) else ({ s with syncing := true }, true)

/-- One `triggerSync()` call. -/
def triggerSync (fail : PutOracle) (exchange : Exchange) (ns : String)
    (s : EngineState) : SyncOutcome :=
  let began := syncBegin s
  if began.2 then syncCycleBody fail exchange ns began.1
  else { state := began.1, calls := [], rejection := none }

/-! ### Trigger interleaving

`triggerSync` runs its guard synchronously, so concurrent triggers during
an in-flight cycle observe `syncing = true`.  The interleavings relevant
to the at-most-one-cycle property are sequences of trigger arrivals and
cycle completions. -/

/-- An event visible to the engine: a sync trigger (mount, notifier,
timer, manual) arriving, or the in-flight cycle reaching its `finally`. -/
inductive SyncEvent : Type where
  | trigger : SyncEvent
  | finish : SyncEvent

/-- One event step; the `Nat` counts exchange invocations: a trigger that
wins the guard starts a cycle whose body invokes the exchange exactly
once, a trigger that loses the guard is dropped, and `finish` applies the
effects of the pending cycle and releases the flag. -/
def stepEvent (fail : PutOracle) (exchange : Exchange) (ns : String)
    (s : EngineState) : SyncEvent → EngineState × Nat
  | .trigger =>
    ((syncBegin s).1, if (syncBegin s).2 then 1 else 0)
  | .finish =>
    if s.syncing then ((syncCycleBody fail exchange ns s).state, 0)
    else (s, 0)

/-- Folding a whole event sequence, accumulating the exchange-invocation
count. -/
def runEvents (fail : PutOracle) (exchange : Exchange) (ns : String) :
    EngineState → List SyncEvent → EngineState × Nat
  | s, [] => (s, 0)
  | s, e :: es =>
    match stepEvent fail exchange ns s e with
    | (s1, c) =>
      match runEvents fail exchange ns s1 es with
      | (s2, c2) => (s2, c + c2)

/-! ### The shape of the exchange invocation -/

/-- A positional JS argument as it appears in a call to the configured
sync function. -/
inductive JsArg : Type where
  | recordsArg : List UnsyncedRecord → JsArg
  | strArg : String → JsArg
  | optStrArg : Option String → JsArg
  | requestArg : SyncRequest → JsArg

/-- The argument list of the call `props.config.sync(\x7b records:
unsynced, namespace, syncCursor \x7d)` in `service.tsx`: one argument,
the bundled request object. -/
def syncCallArgs (records : List UnsyncedRecord) (ns : String)
    (syncCursor : Option String) : List JsArg :=
  [JsArg.requestArg { records := records, ns := ns, syncCursor := syncCursor }]

/-- Modelled from the spec: the declared signature `sync(records:
UnsyncedRecord[], namespace: string, syncCursor?: string)` of
`WireStoreConfig` in `types.ts`, read as the spec reads it — three
positional arguments. -/
def syncCallArgsDeclared (records : List UnsyncedRecord) (ns : String)
    (syncCursor : Option String) : List JsArg :=
  [JsArg.recordsArg records, JsArg.strArg ns, JsArg.optStrArg syncCursor]

/-! ## Store lemmas -/

theorem dbGet_nil (i : String) : dbGet [] i = none := rfl

theorem dbGet_cons (x : IdbRecord) (xs : DB) (i : String) :
    dbGet (x :: xs) i = if x.id = i then some x else dbGet xs i := by
  by_cases h : x.id = i <;> simp [dbGet, List.find?_cons, h]

theorem dbGet_dbPut (db : DB) (r : IdbRecord) (i : String) :
    dbGet (dbPut db r) i = if r.id = i then some r else dbGet db i := by
  induction db with
  | nil =>
    by_cases h : r.id = i <;> simp [dbPut, dbGet_cons, dbGet_nil, h]
  | cons x xs ih =>
    by_cases hx : x.id = r.id
    · have hput : dbPut (x :: xs) r = r :: xs := by simp [dbPut, hx]
      rw [hput]
      by_cases h : r.id = i
      · rw [dbGet_cons, if_pos h, if_pos h]
      · have hxi : x.id ≠ i := fun hc => h (hx.symm.trans hc)
        rw [dbGet_cons, if_neg h, if_neg h, dbGet_cons, if_neg hxi]
    · have hput : dbPut (x :: xs) r = x :: dbPut xs r := by simp [dbPut, hx]
      rw [hput, dbGet_cons]
      by_cases h : x.id = i
      · have hri : r.id ≠ i := fun hc => hx (h.trans hc.symm)
        rw [if_pos h, if_neg hri, dbGet_cons, if_pos h]
      · rw [if_neg h, ih, dbGet_cons, if_neg h]

theorem put_noFail (db : DB) (rs : List IdbRecord) :
    put noFail db rs = (rs.foldl dbPut db, none) := by
  induction rs generalizing db with
  | nil => rfl
  | cons r rs ih => exact ih (dbPut db r)

theorem dbGet_foldPut_of_forall_ne (rs : List IdbRecord) (db : DB) (j : String)
    (h : ∀ r ∈ rs, r.id ≠ j) :
    dbGet (rs.foldl dbPut db) j = dbGet db j := by
  induction rs generalizing db with
  | nil => rfl
  | cons r rs ih =>
    have hr : r.id ≠ j := h r (by simp)
    rw [List.foldl_cons, ih _ (fun x hx => h x (by simp [hx])), dbGet_dbPut,
      if_neg hr]

theorem dbGet_foldPut_pred (P : IdbRecord → Prop) (i : String)
    (rs : List IdbRecord) (db : DB)
    (hall : ∀ r ∈ rs, r.id = i → P r)
    (hbase : (∃ r, dbGet db i = some r ∧ P r) ∨ (∃ r ∈ rs, r.id = i)) :
    ∃ r, dbGet (rs.foldl dbPut db) i = some r ∧ P r := by
  induction rs generalizing db with
  | nil =>
    rcases hbase with h | ⟨r, hr, _⟩
    · exact h
    · cases hr
  | cons r0 rs ih =>
    rw [List.foldl_cons]
    refine ih (dbPut db r0) (fun x hx hxi => hall x (by simp [hx]) hxi) ?_
    by_cases h0 : r0.id = i
    · exact Or.inl ⟨r0, by rw [dbGet_dbPut, if_pos h0], hall r0 (by simp) h0⟩
    · rcases hbase with ⟨r, hr, hP⟩ | ⟨r, hr, hri⟩
      · exact Or.inl ⟨r, by rw [dbGet_dbPut, if_neg h0]; exact hr, hP⟩
      · rcases List.mem_cons.mp hr with rfl | hmem
        · exact absurd hri h0
        · exact Or.inr ⟨r, hmem, hri⟩

theorem dbGet_dbDelete (db : DB) (k i : String) :
    dbGet (dbDelete db k) i = if k = i then none else dbGet db i := by
  induction db with
  | nil => by_cases h : k = i <;> simp [dbDelete, dbGet_nil, h]
  | cons x xs ih =>
    by_cases hx : x.id = k
    · have hdel : dbDelete (x :: xs) k = dbDelete xs k := by
        simp [dbDelete, List.filter_cons, hx]
      rw [hdel, ih]
      by_cases h : k = i
      · rw [if_pos h, if_pos h]
      · have hxi : x.id ≠ i := fun hc => h (hx.symm.trans hc)
        rw [if_neg h, if_neg h, dbGet_cons, if_neg hxi]
    · have hdel : dbDelete (x :: xs) k = x :: dbDelete xs k := by
        simp [dbDelete, List.filter_cons, hx]
      rw [hdel, dbGet_cons]
      by_cases h : x.id = i
      · have hki : k ≠ i := fun hc => hx (h.trans hc.symm)
        rw [if_pos h, if_neg hki, dbGet_cons, if_pos h]
      · rw [if_neg h, ih, dbGet_cons, if_neg h]

theorem dbGet_purge (db : DB) (ids : List String) (i : String) :
    dbGet (purge db ids) i = if i ∈ ids then none else dbGet db i := by
  induction ids generalizing db with
  | nil => simp [purge]
  | cons k ids ih =>
    show dbGet (purge (dbDelete db k) ids) i = _
    rw [ih, dbGet_dbDelete]
    by_cases hmem : i ∈ ids
    · simp [hmem]
    · by_cases hk : k = i
      · simp [hmem, hk]
      · have hk' : ¬i = k := fun hc => hk hc.symm
        simp [hmem, hk, hk']

theorem mem_dbPut_unique (db : DB) (r x : IdbRecord)
    (hnd : (db.map IdbRecord.id).Nodup)
    (hx : x ∈ dbPut db r) (hxi : x.id = r.id) : x = r := by
  induction db with
  | nil =>
    simpa [dbPut] using hx
  | cons y ys ih =>
    rw [List.map_cons, List.nodup_cons] at hnd
    by_cases hy : y.id = r.id
    · rw [show dbPut (y :: ys) r = r :: ys from by simp [dbPut, hy]] at hx
      rcases List.mem_cons.mp hx with h | h
      · exact h
      · exfalso
        have hmm : x.id ∈ ys.map IdbRecord.id := List.mem_map.mpr ⟨x, h, rfl⟩
        rw [hxi, ← hy] at hmm
        exact hnd.1 hmm
    · rw [show dbPut (y :: ys) r = y :: dbPut ys r from by simp [dbPut, hy]] at hx
      rcases List.mem_cons.mp hx with h | h
      · exact absurd (h ▸ hxi) hy
      · exact ih hnd.2 h

/-! ## Engine lemmas -/

theorem triggerSync_run (fail : PutOracle) (exchange : Exchange)
    (ns : String) (db : DB) (cur : Option String) :
    triggerSync fail exchange ns ⟨db, cur, false⟩ =
      syncCycleBody fail exchange ns ⟨db, cur, true⟩ := rfl

theorem syncRequest_syncing (ns : String) (db : DB) (cur : Option String) :
    syncRequest ns ⟨db, cur, true⟩ = syncRequest ns ⟨db, cur, false⟩ := rfl

theorem triggerSync_err (fail : PutOracle) (exchange : Exchange)
    (ns : String) (db : DB) (cur : Option String) (e : String)
    (h : exchange (syncRequest ns ⟨db, cur, false⟩) = Except.error e) :
    triggerSync fail exchange ns ⟨db, cur, false⟩ =
      { state := ⟨db, cur, false⟩,
        calls := [syncRequest ns ⟨db, cur, false⟩],
        rejection := some e } := by
  have h' : exchange (syncRequest ns ⟨db, cur, true⟩) = Except.error e := h
  rw [triggerSync_run]
  unfold syncCycleBody
  rw [h']
  rfl

/-- The full effect of a successful cycle: `put` every `"updated"` entry,
`purge` the id of every `"deleted"` entry, overwrite the cursor slot with
the cursor of the response (clearing it when absent), release the flag,
resolve. -/
theorem triggerSync_ok (exchange : Exchange) (ns : String) (db : DB)
    (cur : Option String) (resp : SyncResponse)
    (h : exchange (syncRequest ns ⟨db, cur, false⟩) = Except.ok resp) :
    triggerSync noFail exchange ns ⟨db, cur, false⟩ =
      { state :=
          ⟨purge (((resp.records.filter (fun r => r.state == RecState.updated)).map
              fromSynced).foldl dbPut db)
            ((resp.records.filter (fun r => r.state == RecState.deleted)).map
              (fun r => r.id)),
          resp.syncCursor, false⟩,
        calls := [syncRequest ns ⟨db, cur, false⟩],
        rejection := none } := by
  have h' : exchange (syncRequest ns ⟨db, cur, true⟩) = Except.ok resp := h
  rw [triggerSync_run]
  unfold syncCycleBody
  rw [h']
  simp only [put_noFail]
  rfl

/-- The effect of a cycle whose exchange succeeds but whose `put` of the
`"updated"` response entries rejects: the failing `await idb.put` aborts
the cycle before the purge and before the cursor is persisted (the slot
keeps its old value), the `finally` releases the flag, and the error
becomes the rejection of the promise `triggerSync` returns. -/
theorem triggerSync_putfail (fail : PutOracle) (exchange : Exchange)
    (ns : String) (db : DB) (cur : Option String) (resp : SyncResponse)
    (db1 : DB) (e : String)
    (hok : exchange (syncRequest ns ⟨db, cur, false⟩) = Except.ok resp)
    (hput : put fail db ((resp.records.filter
        (fun r => r.state == RecState.updated)).map fromSynced) =
      (db1, some e)) :
    triggerSync fail exchange ns ⟨db, cur, false⟩ =
      { state := ⟨db1, cur, false⟩,
        calls := [syncRequest ns ⟨db, cur, false⟩],
        rejection := some e } := by
  have h' : exchange (syncRequest ns ⟨db, cur, true⟩) = Except.ok resp := hok
  rw [triggerSync_run]
  unfold syncCycleBody
  rw [h']
  simp only [hput]
  rfl

theorem syncCycleBody_syncing (fail : PutOracle) (exchange : Exchange)
    (ns : String) (s : EngineState) :
    (syncCycleBody fail exchange ns s).state.syncing = false := by
  unfold syncCycleBody
  split
  · rfl
  · split <;> rfl

theorem syncCycleBody_calls (fail : PutOracle) (exchange : Exchange)
    (ns : String) (s : EngineState) :
    (syncCycleBody fail exchange ns s).calls = [syncRequest ns s] := by
  unfold syncCycleBody
  split
  · rfl
  · split <;> rfl

theorem runEvents_cons (fail : PutOracle) (exchange : Exchange) (ns : String)
    (s : EngineState) (e : SyncEvent) (es : List SyncEvent) :
    runEvents fail exchange ns s (e :: es) =
      ((runEvents fail exchange ns (stepEvent fail exchange ns s e).1 es).1,
       (stepEvent fail exchange ns s e).2 +
         (runEvents fail exchange ns (stepEvent fail exchange ns s e).1 es).2) := by
  show (match stepEvent fail exchange ns s e with
    | (s1, c) =>
      match runEvents fail exchange ns s1 es with
      | (s2, c2) => (s2, c + c2)) = _
  rcases hs : stepEvent fail exchange ns s e with ⟨s1, c⟩
  rcases hr : runEvents fail exchange ns s1 es with ⟨s2, c2⟩
  simp [hr]

theorem runEvents_append (fail : PutOracle) (exchange : Exchange)
    (ns : String) (s : EngineState) (l1 l2 : List SyncEvent) :
    runEvents fail exchange ns s (l1 ++ l2) =
      ((runEvents fail exchange ns (runEvents fail exchange ns s l1).1 l2).1,
       (runEvents fail exchange ns s l1).2 +
         (runEvents fail exchange ns (runEvents fail exchange ns s l1).1 l2).2) := by
  induction l1 generalizing s with
  | nil => show runEvents fail exchange ns s l2 = _; simp [runEvents]
  | cons e es ih =>
    rw [List.cons_append, runEvents_cons, ih, runEvents_cons]
    simp [Nat.add_assoc]

theorem stepEvent_trigger_busy (fail : PutOracle) (exchange : Exchange)
    (ns : String) (s : EngineState) (h : s.syncing = true) :
    stepEvent fail exchange ns s SyncEvent.trigger = (s, 0) := by
  simp [stepEvent, syncBegin, h]

theorem stepEvent_trigger_idle (fail : PutOracle) (exchange : Exchange)
    (ns : String) (s : EngineState) (h : s.syncing = false) :
    stepEvent fail exchange ns s SyncEvent.trigger =
      ({ s with syncing := true }, 1) := by
  simp [stepEvent, syncBegin, h]

theorem runEvents_replicate_busy (fail : PutOracle) (exchange : Exchange)
    (ns : String) (db : DB) (cur : Option String) (n : Nat) :
    runEvents fail exchange ns ⟨db, cur, true⟩
      (List.replicate n SyncEvent.trigger) = (⟨db, cur, true⟩, 0) := by
  induction n with
  | zero => rfl
  | succ n ih =>
    rw [List.replicate_succ, runEvents_cons,
      stepEvent_trigger_busy fail exchange ns ⟨db, cur, true⟩ rfl]
    simp [ih]

/-! ## Claims -/

/-- Claim C2: in every sync cycle whose remote exchange call rejects, the
cycle performs no put and no purge (the record store is unchanged), the
persisted cursor value is unchanged, every record unsynced before the
cycle is still unsynced after it, and the syncing flag is reset to false
(the engine returns to Idle); the exchange was invoked exactly once. -/
theorem C2_exchange_failure_preserves_state (fail : PutOracle)
    (exchange : Exchange) (ns : String) (db : DB) (cur : Option String)
    (e : String)
    (h : exchange (syncRequest ns ⟨db, cur, false⟩) = Except.error e) :
    (triggerSync fail exchange ns ⟨db, cur, false⟩).state.db = db ∧
    (triggerSync fail exchange ns ⟨db, cur, false⟩).state.cursorSlot = cur ∧
    getUnsynced (triggerSync fail exchange ns ⟨db, cur, false⟩).state.db =
      getUnsynced db ∧
    (triggerSync fail exchange ns ⟨db, cur, false⟩).state.syncing = false ∧
    (triggerSync fail exchange ns ⟨db, cur, false⟩).calls =
      [syncRequest ns ⟨db, cur, false⟩] := by
  rw [triggerSync_err fail exchange ns db cur e h]
  exact ⟨rfl, rfl, rfl, rfl, rfl⟩

theorem C2_exchange_failure_preserves_state_witness :
    ((fun _ => Except.error "network" : Exchange)
        (syncRequest ""
          ⟨[⟨"1", "todo", none, some "true", JSValue.null⟩], none, false⟩) =
      Except.error "network") ∧
    (triggerSync noFail (fun _ => Except.error "network") ""
        ⟨[⟨"1", "todo", none, some "true", JSValue.null⟩], none, false⟩).state.db =
      [⟨"1", "todo", none, some "true", JSValue.null⟩] :=
  ⟨rfl,
    (C2_exchange_failure_preserves_state noFail (fun _ => Except.error "network")
      "" [⟨"1", "todo", none, some "true", JSValue.null⟩] none "network" rfl).1⟩

/-- Claim C4: a cycle with no stored cursor calls the exchange with an
absent cursor; when the response carries cursor C1, the next cycle calls
the exchange with C1; when a response omits the cursor, the slot is
cleared and the following cycle again calls with an absent cursor. -/
theorem C4_cursor_persistence (db : DB) (rs1 rs2 : List SyncedRecord)
    (ns : String) :
    (syncRequest ns ⟨db, none, false⟩).syncCursor = none ∧
    (triggerSync noFail (fun _ => Except.ok ⟨rs1, some "C1"⟩) ns
        ⟨db, none, false⟩).calls = [syncRequest ns ⟨db, none, false⟩] ∧
    (triggerSync noFail (fun _ => Except.ok ⟨rs1, some "C1"⟩) ns
        ⟨db, none, false⟩).state.cursorSlot = some "C1" ∧
    (syncRequest ns (triggerSync noFail (fun _ => Except.ok ⟨rs1, some "C1"⟩)
        ns ⟨db, none, false⟩).state).syncCursor = some "C1" ∧
    (triggerSync noFail (fun _ => Except.ok ⟨rs2, none⟩) ns
        (triggerSync noFail (fun _ => Except.ok ⟨rs1, some "C1"⟩) ns
          ⟨db, none, false⟩).state).state.cursorSlot = none ∧
    (syncRequest ns (triggerSync noFail (fun _ => Except.ok ⟨rs2, none⟩) ns
        (triggerSync noFail (fun _ => Except.ok ⟨rs1, some "C1"⟩) ns
          ⟨db, none, false⟩).state).state).syncCursor = none := by
  rw [triggerSync_ok (fun _ => Except.ok ⟨rs1, some "C1"⟩) ns db none
    ⟨rs1, some "C1"⟩ rfl]
  rw [triggerSync_ok (fun _ => Except.ok ⟨rs2, none⟩) ns _ (some "C1")
    ⟨rs2, none⟩ rfl]
  exact ⟨rfl, rfl, rfl, rfl, rfl, rfl⟩

/-- Claim C5: any id the exchange response reports with state
`"deleted"` has no stored row at all after the cycle (hard delete), and
purging an id with no stored record leaves the store unchanged and is not
an error. -/
theorem C5_purge_on_server_delete (exchange : Exchange) (ns : String)
    (db : DB) (cur : Option String) (resp : SyncResponse) (A : String)
    (hok : exchange (syncRequest ns ⟨db, cur, false⟩) = Except.ok resp)
    (hdel : ∃ r ∈ resp.records, r.id = A ∧ r.state = RecState.deleted) :
    dbGet (triggerSync noFail exchange ns ⟨db, cur, false⟩).state.db A =
      none ∧
    (dbGet db A = none → purge db [A] = db) := by
  constructor
  · rw [triggerSync_ok exchange ns db cur resp hok]
    obtain ⟨r, hr, hid, hst⟩ := hdel
    have hmem : A ∈ (resp.records.filter
        (fun r => r.state == RecState.deleted)).map (fun r => r.id) :=
      List.mem_map.mpr ⟨r, List.mem_filter.mpr ⟨hr, by simp [hst]⟩, hid⟩
    rw [dbGet_purge, if_pos hmem]
  · intro hnone
    show dbDelete db A = db
    have hall := List.find?_eq_none.mp hnone
    unfold dbDelete
    refine List.filter_eq_self.mpr ?_
    intro r hr
    have h1 : r.id ≠ A := by simpa using hall r hr
    simpa using h1

theorem C5_purge_on_server_delete_witness :
    ((fun _ => Except.ok ⟨[⟨"A", "todo", RecState.deleted, JSValue.obj JSFields.nil⟩], none⟩ : Exchange)
        (syncRequest ""
          ⟨[⟨"A", "todo", some true, some "true", JSValue.null⟩], none, false⟩) =
      Except.ok ⟨[⟨"A", "todo", RecState.deleted, JSValue.obj JSFields.nil⟩], none⟩) ∧
    dbGet (triggerSync noFail
        (fun _ => Except.ok ⟨[⟨"A", "todo", RecState.deleted, JSValue.obj JSFields.nil⟩], none⟩)
        "" ⟨[⟨"A", "todo", some true, some "true", JSValue.null⟩], none,
          false⟩).state.db "A" = none :=
  ⟨rfl,
    (C5_purge_on_server_delete
      (fun _ => Except.ok ⟨[⟨"A", "todo", RecState.deleted, JSValue.obj JSFields.nil⟩], none⟩)
      "" [⟨"A", "todo", some true, some "true", JSValue.null⟩] none
      ⟨[⟨"A", "todo", RecState.deleted, JSValue.obj JSFields.nil⟩], none⟩ "A" rfl
      ⟨⟨"A", "todo", RecState.deleted, JSValue.obj JSFields.nil⟩,
        List.mem_singleton.mpr rfl, rfl, rfl⟩).1⟩

/-- Claim C6: after `delete(id)` through the public API, `get(id)` returns
`undefined` and `all()` for the type excludes the record, yet the raw row
for the id still exists with `deleted: true` and empty-object `data`; this
holds even when no record existed for the id, and the delete resolves
without error (in particular for a missing id). -/
theorem C6_soft_delete_visibility (db : DB) (ty i : String)
    (hnd : (db.map IdbRecord.id).Nodup) :
    (softDelete noFail ty [i] db).2 = none ∧
    get (softDelete noFail ty [i] db).1 i = none ∧
    (∀ r ∈ allRecords (softDelete noFail ty [i] db).1 ty, r.id ≠ i) ∧
    dbGet (softDelete noFail ty [i] db).1 i = some (tombstone ty i) ∧
    (tombstone ty i).deleted = some true ∧
    (tombstone ty i).data = JSValue.obj JSFields.nil := by
  have hsd : softDelete noFail ty [i] db = (dbPut db (tombstone ty i), none) := rfl
  rw [hsd]
  have hget : dbGet (dbPut db (tombstone ty i)) i = some (tombstone ty i) := by
    rw [dbGet_dbPut]; exact if_pos rfl
  refine ⟨rfl, ?_, ?_, hget, rfl, rfl⟩
  · show get (dbPut db (tombstone ty i)) i = none
    unfold get
    rw [hget]
    simp [tombstone]
  · intro r hr hri
    have h1 := List.mem_filter.mp hr
    have h2 := List.mem_filter.mp h1.1
    have heq : r = tombstone ty i := mem_dbPut_unique db _ r hnd h2.1 hri
    rw [heq] at h1
    simp [tombstone] at h1

theorem C6_soft_delete_visibility_witness :
    (([] : DB).map IdbRecord.id).Nodup ∧
    get (softDelete noFail "todo" ["1"] []).1 "1" = none ∧
    dbGet (softDelete noFail "todo" ["1"] []).1 "1" =
      some (tombstone "todo" "1") :=
  ⟨by simp,
    (C6_soft_delete_visibility [] "todo" "1" (by simp)).2.1,
    (C6_soft_delete_visibility [] "todo" "1" (by simp)).2.2.2.1⟩

/-- Claim C7: for a JSON-serializable payload, `set(id, data)` followed by
`get(id)` returns exactly the JSON round trip of the payload; the write
succeeds, and non-representable object fields are dropped by the round
trip rather than raising an error. -/
theorem C7_round_trip (ty i : String) (d v : JSValue) (db : DB)
    (h : jsonRT d = some v) :
    (set noFail ty i d db).2 = none ∧
    get (set noFail ty i d db).1 i = some v ∧
    (∀ fs : JSFields, ∃ w, jsonRT (JSValue.obj fs) = some w) ∧
    (∀ (k : String) (fs : JSFields),
      jsonRT (JSValue.obj (JSFields.cons k JSValue.fn fs)) =
        jsonRT (JSValue.obj fs)) := by
  have hset : set noFail ty i d db = (dbPut db (setRecord ty i v), none) := by
    rw [set, h]
    show put noFail db [setRecord ty i v] = _
    rw [put_noFail]
    rfl
  rw [hset]
  have hget : dbGet (dbPut db (setRecord ty i v)) i = some (setRecord ty i v) := by
    rw [dbGet_dbPut]; exact if_pos rfl
  refine ⟨rfl, ?_, fun fs => ⟨JSValue.obj (jsonRTFields fs), rfl⟩,
    fun k fs => rfl⟩
  show get (dbPut db (setRecord ty i v)) i = some v
  unfold get
  rw [hget]
  simp [setRecord]

theorem C7_round_trip_witness :
    jsonRT (JSValue.obj (JSFields.cons "a" JSValue.fn JSFields.nil)) =
      some (JSValue.obj JSFields.nil) ∧
    get (set noFail "todo" "1"
        (JSValue.obj (JSFields.cons "a" JSValue.fn JSFields.nil)) []).1 "1" =
      some (JSValue.obj JSFields.nil) :=
  ⟨rfl,
    (C7_round_trip "todo" "1"
      (JSValue.obj (JSFields.cons "a" JSValue.fn JSFields.nil))
      (JSValue.obj JSFields.nil) [] rfl).2.1⟩

/-- Claim C10: `listenToUnsyncedChanges` keys each callback by the
current time in milliseconds as a string; a second registration in the
same millisecond silently replaces the first (only the second callback is
notified afterwards), both registrations return unsubscribe handles for
the same single key, and running the unsubscribe handle of the first
caller removes the subscription of the second caller. -/
theorem C10_subscriber_key_collision (t c1 c2 : Nat) :
    (listenToUnsyncedChanges [] t c1).2 =
      (listenToUnsyncedChanges (listenToUnsyncedChanges [] t c1).1 t c2).2 ∧
    (listenToUnsyncedChanges (listenToUnsyncedChanges [] t c1).1 t c2).1 =
      [(toString t, c2)] ∧
    notifyUnsyncedChanges
      (listenToUnsyncedChanges (listenToUnsyncedChanges [] t c1).1 t c2).1 =
      [c2] ∧
    unsubscribe
      (listenToUnsyncedChanges (listenToUnsyncedChanges [] t c1).1 t c2).1
      (listenToUnsyncedChanges [] t c1).2 = [] := by
  have hmap : (listenToUnsyncedChanges (listenToUnsyncedChanges [] t c1).1 t c2).1 =
      [(toString t, c2)] := by
    simp [listenToUnsyncedChanges, subSet]
  refine ⟨rfl, hmap, ?_, ?_⟩
  · rw [hmap]; rfl
  · rw [hmap]
    simp [unsubscribe, subDel, listenToUnsyncedChanges]

/-- Claim C8 counterexample: the engine does not invoke the configured
exchange with three positional arguments matching the declared signature
`sync(records, namespace, syncCursor?)` of `types.ts`; the actual call in
`service.tsx` passes a single object argument, so the two argument lists
differ already at the empty store. -/
theorem C8_positional_call_counterexample :
    syncCallArgs [] "ns" none ≠ syncCallArgsDeclared [] "ns" none := by
  simp [syncCallArgs, syncCallArgsDeclared]

/-- Claim C8 (amended): in every sync cycle the engine invokes the
configured exchange function exactly once, passing a single argument —
the object bundling the UnsyncedRecord array, the namespace string and
the optional cursor string (not three positional arguments). -/
theorem C8_exchange_call_shape (fail : PutOracle) (exchange : Exchange)
    (ns : String) (db : DB) (cur : Option String) :
    (triggerSync fail exchange ns ⟨db, cur, false⟩).calls =
      [syncRequest ns ⟨db, cur, false⟩] ∧
    syncCallArgs ((getUnsynced db).map toUnsynced) ns (cursorRead cur) =
      [JsArg.requestArg (syncRequest ns ⟨db, cur, false⟩)] ∧
    (syncRequest ns ⟨db, cur, false⟩).records =
      (getUnsynced db).map toUnsynced ∧
    (syncRequest ns ⟨db, cur, false⟩).ns = ns ∧
    (syncRequest ns ⟨db, cur, false⟩).syncCursor = cursorRead cur := by
  refine ⟨?_, rfl, rfl, rfl, rfl⟩
  rw [triggerSync_run]
  exact syncCycleBody_calls fail exchange ns ⟨db, cur, true⟩

/-- Claim C9 counterexample: a failure inside a background sync cycle is
not "only logged, never propagated": `triggerSync` has no catch (only a
`finally`), so an exchange rejection rejects the promise `triggerSync`
returns to whoever triggered it (e.g. a caller of the exposed manual
`sync`), and nothing in the sync path logs it. -/
theorem C9_sync_error_not_swallowed_counterexample :
    (triggerSync noFail (fun _ => Except.error "network") ""
      ⟨[], none, false⟩).rejection ≠ none := by
  intro hc
  exact Option.noConfusion hc

/-- Claim C9 (amended): failures in the sync cycle — whether the exchange
rejects or a storage write rejects while applying the response entries —
are not caught or logged by the engine: the error becomes the rejection
of the promise `triggerSync` returns (observable by whoever awaits a
trigger, e.g. a caller of the exposed manual `sync`), with the syncing
flag still released by the `finally`; in the storage-failure case the
cycle aborts before the cursor slot is persisted, so the slot keeps its
old value; while failures in the write path (`set`/`delete`, via `put`)
always reject the operation of the caller. -/
theorem C9_error_propagation (fail : PutOracle)
    (exchange exchange2 : Exchange)
    (ns : String) (db : DB) (cur : Option String) (e : String)
    (ty i : String) (d v : JSValue) (msg : String)
    (resp : SyncResponse) (db1 : DB) (e2 : String)
    (hex : exchange (syncRequest ns ⟨db, cur, false⟩) = Except.error e)
    (hok : exchange2 (syncRequest ns ⟨db, cur, false⟩) = Except.ok resp)
    (hput : put fail db ((resp.records.filter
        (fun r => r.state == RecState.updated)).map fromSynced) =
      (db1, some e2))
    (hrt : jsonRT d = some v)
    (hset : fail (setRecord ty i v) = some msg)
    (htomb : fail (tombstone ty i) = some msg) :
    (triggerSync fail exchange ns ⟨db, cur, false⟩).rejection = some e ∧
    (triggerSync fail exchange ns ⟨db, cur, false⟩).state.syncing = false ∧
    (triggerSync fail exchange2 ns ⟨db, cur, false⟩).rejection = some e2 ∧
    (triggerSync fail exchange2 ns ⟨db, cur, false⟩).state.syncing = false ∧
    (triggerSync fail exchange2 ns ⟨db, cur, false⟩).state.cursorSlot = cur ∧
    (set fail ty i d db).2 = some msg ∧
    (softDelete fail ty [i] db).2 = some msg := by
  rw [triggerSync_err fail exchange ns db cur e hex,
    triggerSync_putfail fail exchange2 ns db cur resp db1 e2 hok hput]
  refine ⟨rfl, rfl, rfl, rfl, rfl, ?_, ?_⟩
  · rw [set, hrt]
    show (put fail db [setRecord ty i v]).2 = some msg
    show [setRecord ty i v].findSome? fail = some msg
    rw [List.findSome?_cons, hset]
  · show (none <|> [tombstone ty i].findSome? fail) = some msg
    rw [List.findSome?_cons, htomb]
    rfl

theorem C9_error_propagation_witness :
    ((fun _ => Except.error "network" : Exchange)
        (syncRequest "" ⟨[], none, false⟩) = Except.error "network") ∧
    (put (fun _ => some "disk") []
        ((([⟨"1", "todo", RecState.updated, JSValue.null⟩] :
          List SyncedRecord).filter
            (fun r => r.state == RecState.updated)).map fromSynced) =
      ([], some "disk")) ∧
    (triggerSync (fun _ => some "disk") (fun _ => Except.error "network") ""
      ⟨[], none, false⟩).rejection = some "network" ∧
    (triggerSync (fun _ => some "disk")
      (fun _ => Except.ok
        ⟨[⟨"1", "todo", RecState.updated, JSValue.null⟩], some "t1"⟩) ""
      ⟨[], none, false⟩).rejection = some "disk" ∧
    (triggerSync (fun _ => some "disk")
      (fun _ => Except.ok
        ⟨[⟨"1", "todo", RecState.updated, JSValue.null⟩], some "t1"⟩) ""
      ⟨[], none, false⟩).state.cursorSlot = none ∧
    (set (fun _ => some "disk") "todo" "1" JSValue.null []).2 = some "disk" ∧
    (softDelete (fun _ => some "disk") "todo" ["1"] []).2 = some "disk" := by
  have h := C9_error_propagation (fun _ => some "disk")
    (fun _ => Except.error "network")
    (fun _ => Except.ok
      ⟨[⟨"1", "todo", RecState.updated, JSValue.null⟩], some "t1"⟩)
    "" [] none "network" "todo" "1" JSValue.null JSValue.null "disk"
    ⟨[⟨"1", "todo", RecState.updated, JSValue.null⟩], some "t1"⟩ [] "disk"
    rfl rfl rfl rfl rfl rfl
  exact ⟨rfl, rfl, h.1, h.2.2.1, h.2.2.2.2.1, h.2.2.2.2.2.1,
    h.2.2.2.2.2.2⟩

/-- Claim C1: immediately after `set(id, data)` or `delete(id)` through
the public API, the raw stored record for the id has `unsynced = "true"`;
after a sync cycle whose exchange response echoes the id with state
`"updated"` (and does not also report it deleted), the stored record has
no `unsynced` field — cleared only because the response entry is written
via `put` as a record lacking the field; and the engine never clears
`unsynced` proactively: an unsynced record whose id the response does not
mention is untouched and still unsynced. -/
theorem C1_unsynced_marking (ty i : String) (d v : JSValue) (db : DB)
    (cur : Option String) (ns : String) (resp : SyncResponse)
    (j : String) (r0 : IdbRecord)
    (hrt : jsonRT d = some v)
    (hupd : ∃ r ∈ resp.records, r.id = i ∧ r.state = RecState.updated)
    (hnodel : ∀ r ∈ resp.records, r.id = i → r.state ≠ RecState.deleted)
    (hj : dbGet (set noFail ty i d db).1 j = some r0)
    (hju : r0.unsynced = some "true")
    (hjresp : ∀ r ∈ resp.records, r.id ≠ j) :
    dbGet (set noFail ty i d db).1 i = some (setRecord ty i v) ∧
    (setRecord ty i v).unsynced = some "true" ∧
    dbGet (softDelete noFail ty [i] db).1 i = some (tombstone ty i) ∧
    (tombstone ty i).unsynced = some "true" ∧
    (∃ r, dbGet (triggerSync noFail (fun _ => Except.ok resp) ns
        ⟨(set noFail ty i d db).1, cur, false⟩).state.db i = some r ∧
      r.unsynced = none) ∧
    (dbGet (triggerSync noFail (fun _ => Except.ok resp) ns
        ⟨(set noFail ty i d db).1, cur, false⟩).state.db j = some r0 ∧
      r0.unsynced = some "true") := by
  have hset : set noFail ty i d db = (dbPut db (setRecord ty i v), none) := by
    rw [set, hrt]
    show put noFail db [setRecord ty i v] = _
    rw [put_noFail]
    rfl
  have hok := triggerSync_ok (fun _ => Except.ok resp) ns
    (set noFail ty i d db).1 cur resp rfl
  refine ⟨?_, rfl, ?_, rfl, ?_, ?_⟩
  · rw [hset, dbGet_dbPut]
    exact if_pos rfl
  · have hsd : softDelete noFail ty [i] db = (dbPut db (tombstone ty i), none) := rfl
    rw [hsd, dbGet_dbPut]
    exact if_pos rfl
  · rw [hok]
    have hnotdel : i ∉ (resp.records.filter
        (fun r => r.state == RecState.deleted)).map (fun r => r.id) := by
      intro hmem
      obtain ⟨r, hrf, hrid⟩ := List.mem_map.mp hmem
      have h2 := List.mem_filter.mp hrf
      have hst : r.state = RecState.deleted := by simpa using h2.2
      exact hnodel r h2.1 hrid hst
    rw [dbGet_purge, if_neg hnotdel]
    refine dbGet_foldPut_pred (fun r => r.unsynced = none) i _ _ ?_ ?_
    · intro r hr _
      obtain ⟨x, hx, hfx⟩ := List.mem_map.mp hr
      rw [← hfx]
      rfl
    · right
      obtain ⟨r, hr, hrid, hrst⟩ := hupd
      exact ⟨fromSynced r,
        List.mem_map.mpr ⟨r, List.mem_filter.mpr ⟨hr, by simp [hrst]⟩, rfl⟩,
        hrid⟩
  · rw [hok]
    have hjdel : j ∉ (resp.records.filter
        (fun r => r.state == RecState.deleted)).map (fun r => r.id) := by
      intro hmem
      obtain ⟨r, hrf, hrid⟩ := List.mem_map.mp hmem
      exact hjresp r (List.mem_filter.mp hrf).1 hrid
    have hne : ∀ r ∈ (resp.records.filter
        (fun r => r.state == RecState.updated)).map fromSynced, r.id ≠ j := by
      intro r hr
      obtain ⟨x, hx, hfx⟩ := List.mem_map.mp hr
      rw [← hfx]
      exact hjresp x (List.mem_filter.mp hx).1
    rw [dbGet_purge, if_neg hjdel, dbGet_foldPut_of_forall_ne _ _ _ hne]
    exact ⟨hj, hju⟩

theorem C1_unsynced_marking_witness :
    jsonRT JSValue.null = some JSValue.null ∧
    dbGet (set noFail "todo" "1" JSValue.null
        [⟨"2", "todo", none, some "true", JSValue.null⟩]).1 "1" =
      some (setRecord "todo" "1" JSValue.null) ∧
    (∃ r, dbGet (triggerSync noFail
        (fun _ => Except.ok ⟨[⟨"1", "todo", RecState.updated, JSValue.null⟩], some "t1"⟩)
        "" ⟨(set noFail "todo" "1" JSValue.null
          [⟨"2", "todo", none, some "true", JSValue.null⟩]).1, none,
          false⟩).state.db "1" = some r ∧ r.unsynced = none) ∧
    dbGet (triggerSync noFail
        (fun _ => Except.ok ⟨[⟨"1", "todo", RecState.updated, JSValue.null⟩], some "t1"⟩)
        "" ⟨(set noFail "todo" "1" JSValue.null
          [⟨"2", "todo", none, some "true", JSValue.null⟩]).1, none,
          false⟩).state.db "2" =
      some ⟨"2", "todo", none, some "true", JSValue.null⟩ := by
  have h := C1_unsynced_marking "todo" "1" JSValue.null JSValue.null
    [⟨"2", "todo", none, some "true", JSValue.null⟩] none ""
    ⟨[⟨"1", "todo", RecState.updated, JSValue.null⟩], some "t1"⟩ "2"
    ⟨"2", "todo", none, some "true", JSValue.null⟩ rfl
    ⟨⟨"1", "todo", RecState.updated, JSValue.null⟩,
      List.mem_singleton.mpr rfl, rfl, rfl⟩
    (by simp) rfl rfl (by simp)
  exact ⟨rfl, h.1, h.2.2.2.2.1, h.2.2.2.2.2.1⟩

/-- Claim C3: any number of triggers fired while a cycle is in flight are
dropped without queueing (zero additional exchange invocations); a run
that starts one cycle and receives any number of further triggers before
the cycle completes invokes the exchange exactly once; and a second
invocation happens exactly when the first cycle has completed (flag
released by its `finally`) and a new trigger arrives. -/
theorem C3_at_most_one_cycle (fail : PutOracle) (exchange : Exchange)
    (ns : String) (db : DB) (cur : Option String) (n : Nat) :
    (runEvents fail exchange ns ⟨db, cur, true⟩
      (List.replicate n SyncEvent.trigger)).2 = 0 ∧
    (runEvents fail exchange ns ⟨db, cur, false⟩
      (SyncEvent.trigger :: List.replicate n SyncEvent.trigger)).2 = 1 ∧
    (runEvents fail exchange ns ⟨db, cur, false⟩
      ((SyncEvent.trigger :: List.replicate n SyncEvent.trigger) ++
        [SyncEvent.finish, SyncEvent.trigger])).2 = 2 := by
  have h1 : runEvents fail exchange ns ⟨db, cur, false⟩
      (SyncEvent.trigger :: List.replicate n SyncEvent.trigger) =
      (⟨db, cur, true⟩, 1) := by
    rw [runEvents_cons,
      stepEvent_trigger_idle fail exchange ns ⟨db, cur, false⟩ rfl]
    simp [runEvents_replicate_busy]
  have h2 : (runEvents fail exchange ns ⟨db, cur, true⟩
      [SyncEvent.finish, SyncEvent.trigger]).2 = 1 := by
    rw [runEvents_cons]
    have hf : stepEvent fail exchange ns ⟨db, cur, true⟩ SyncEvent.finish =
        ((syncCycleBody fail exchange ns ⟨db, cur, true⟩).state, 0) := rfl
    rw [hf]
    rw [runEvents_cons, stepEvent_trigger_idle fail exchange ns _
      (syncCycleBody_syncing fail exchange ns ⟨db, cur, true⟩)]
    simp [runEvents]
  refine ⟨?_, ?_, ?_⟩
  · rw [runEvents_replicate_busy]
  · rw [h1]
  · rw [runEvents_append, h1]
    simp [h2]

end SolidWire
